import Mathlib

/-!
Shallow embedding of the price-action-zones pipeline (`src/zones.py`).

Conventions of the embedding:
* Timestamps are integral milliseconds and are modelled as `ℤ` (the Python
  code stores them as floats after `astype(float)`, but every value is an
  integral timestamp and every operation on them is integral).
* Prices, volumes and trade counts are Python floats; their arithmetic
  (`abs`, `+`, `-`, `max`, `min`, `/`, comparisons) is modelled exactly over `ℚ`.
* A pandas `DataFrame` of rows is modelled as a `List` of structures holding
  exactly the columns the function keeps; `sort_values` is modelled as
  `List.insertionSort` on the sort key (the pandas sort is an unstable
  quicksort, so only the key order is specified; all theorems below that
  depend on a sort either hold for any correct sort or carry hypotheses
  making the sorted list unique).
* A Python run-time exception (UnboundLocalError, ZeroDivisionError,
  IndexError) is modelled by returning `none` from an `Option`-valued
  function at exactly the program points where the exception is raised.
-/

/-- One row of the normalized candle frame: the eight columns kept by
`generate_missing_candles` (`open_timestamp`, `open`, `high`, `low`, `close`,
`volume`, `close_timestamp`, `trades_number`).  The Python columns `open` and
`close` are named `open_price` and `close_price` because `open` is a Lean
keyword; these are also the local variable names used in
`generate_missing_candles` itself. -/
structure Candle where
  open_timestamp : ℤ
  open_price : ℚ
  high : ℚ
  low : ℚ
  close_price : ℚ
  volume : ℚ
  close_timestamp : ℤ
  trades_number : ℚ
deriving DecidableEq, Inhabited

/-- The value of the `candle_type` column assigned by `find_base_candles`:
the strings `"momentum"` and `"base"`. -/
inductive CandleType where
  | momentum : CandleType
  | base : CandleType
deriving DecidableEq, Inhabited

/-- One row of the classified candle frame produced by `find_base_candles`:
a candle together with its `momentum` and `candle_type` columns. -/
structure BCandle where
  candle : Candle
  momentum : ℚ
  candle_type : CandleType
deriving DecidableEq, Inhabited

/-- One row of the zones frame (`close_timestamp`, `high`, `low`). -/
structure Zone where
  close_timestamp : ℤ
  high : ℚ
  low : ℚ
deriving DecidableEq, Inhabited

/-! ## Timeframe token conversion (`convert_timeframe`, zones.py lines 9-34) -/

/-- Numeric value of a list of ASCII digit characters, most significant first;
this is the value Python's `int` gives a digit string. -/
def digitsVal (cs : List Char) : ℤ :=
  cs.foldl (fun a c => 10 * a + ((c.toNat : ℤ) - 48)) 0

/-- Models Python's builtin `int(s)` on the strings relevant here: an optional
single leading sign followed by one or more ASCII digits parses to its value,
anything else raises `ValueError` (modelled as `none`).  Python's extra
tolerance for surrounding whitespace and digit-group underscores is outside
the scope of every claim and is not modelled. -/
def pyInt? (cs : List Char) : Option ℤ :=
  match cs with
  | '+' :: rest =>
      if rest ≠ [] ∧ rest.all Char.isDigit then some (digitsVal rest) else none
  | '-' :: rest =>
      if rest ≠ [] ∧ rest.all Char.isDigit then some (-(digitsVal rest)) else none
  | _ =>
      if cs ≠ [] ∧ cs.all Char.isDigit then some (digitsVal cs) else none

/-- Character-level body of `convert_timeframe`: last character is the unit,
the rest goes through `int`. -/
def convert_timeframe_core (cs : List Char) : Option ℤ :=
  match cs.getLast? with
  | none => none
  | some unit =>
    some (match pyInt? cs.dropLast with
      | none => 0
      | some number =>
        if unit = 'm' then number * 60000
        else if unit = 'h' then number * 60000 * 60
        else if unit = 'd' then number * 60000 * 60 * 24
        else if unit = 'w' then number * 60000 * 60 * 24 * 7
        else 0)

/-- Embedding of `convert_timeframe` (zones.py lines 9-34).  `unit` is
`timeframe_string[-1]`, read before the `try` block, so the empty string
raises an uncaught `IndexError` (modelled as `none`); a failing
`int(timeframe_string[:-1])` is caught by the bare `except` and yields 0, as
does an unrecognized unit character. -/
def convert_timeframe (timeframe_string : String) : Option ℤ :=
  convert_timeframe_core timeframe_string.data

/-- Embedding of the timestamp-alignment step of `get_candles` (zones.py
lines 90-92): `current_timestamp - (current_timestamp % timeframe_ms)`.
When `timeframe_ms` is 0 the Python `%` raises `ZeroDivisionError`, modelled
as `none`.  For the positive divisors produced by valid timeframe tokens,
Python's `%` agrees with `Int.emod`. -/
def last_timestamp_in_timeframe (current_timestamp timeframe_ms : ℤ) : Option ℤ :=
  if timeframe_ms = 0 then none
  else some (current_timestamp - current_timestamp % timeframe_ms)

/-! ## Normalizer (`generate_missing_candles`, zones.py lines 106-142)

The Python loop walks index pairs `(index-1, index)` of the *original* frame
(the `range` is computed once, appended rows are only ever added at label 0 and
are never read back), appends one filler row per gapped pair, and finally
sorts by `open_timestamp`.  This is modelled as `data ++ fillers data`
followed by a sort. -/

/-- The filler candle synthesized for the gapped adjacent pair `(a, b)`
(zones.py lines 127-139). -/
def mkFiller (a b : Candle) : Candle :=
  { open_timestamp := a.close_timestamp + 1
    open_price := a.close_price
    high := max a.close_price b.open_price
    low := min a.close_price b.open_price
    close_price := b.open_price
    volume := (a.volume + b.volume) / 2
    close_timestamp := b.open_timestamp - 1
    trades_number := (a.trades_number + b.trades_number) / 2 }

/-- The list of filler candles appended by the loop of
`generate_missing_candles`, one per adjacent input pair `(a, b)` with
`a.close_timestamp + 1 ≠ b.open_timestamp`, in pair order. -/
def fillers : List Candle → List Candle
  | [] => []
  | [_] => []
  | a :: b :: rest =>
      (if a.close_timestamp + 1 = b.open_timestamp then [] else [mkFiller a b])
        ++ fillers (b :: rest)

/-- Sort key of `sort_values(by="open_timestamp", ascending=True)`. -/
def byOpen (x y : Candle) : Prop := x.open_timestamp ≤ y.open_timestamp

instance : DecidableRel byOpen := fun x y => inferInstanceAs (Decidable (x.open_timestamp ≤ y.open_timestamp))

instance : IsTotal Candle byOpen := ⟨fun x y => le_total x.open_timestamp y.open_timestamp⟩

instance : IsTrans Candle byOpen := ⟨fun _ _ _ h h' => le_trans h h'⟩

/-- Embedding of `generate_missing_candles` (zones.py lines 106-142): the
column drop is the projection onto the `Candle` fields, the append loop is
`fillers`, and the final `sort_values(by="open_timestamp")` is a sort by
`byOpen`. -/
def generate_missing_candles (data : List Candle) : List Candle :=
  List.insertionSort byOpen (data ++ fillers data)

/-! ## Classifier (`find_base_candles`, zones.py lines 162-190) -/

/-- The `momentum` column: `abs(row["close"] - row["open"])` (zones.py
line 181). -/
def Candle.momentum (c : Candle) : ℚ := |c.close_price - c.open_price|

/-- The neighbor-momentum sum read at loop index `index` of
`find_base_candles` (zones.py lines 186-187):
`sum([momentum[i] for i in range(index - nocffz, index + nocffz + 1) if i != index])`.
The `candle_type` writes in the loop never change the `momentum` column, so
every read is of the original momenta. -/
def neighborSum (data : List Candle) (nocffz index : ℕ) : ℚ :=
  ((((List.range (2 * nocffz + 1)).map (fun k => index - nocffz + k)).filter
      (fun i => decide (i ≠ index))).map
    (fun i => (data.getD i default).momentum)).sum

/-- Embedding of `find_base_candles` (zones.py lines 162-190).  Every row
starts as `"momentum"`; rows with index in `range(nocffz, len(data) - nocffz)`
become `"base"` when the neighbor average exceeds `6 *` their own momentum.
When `nocffz = 0` and the frame is nonempty, the first loop iteration divides
by `2 * nocffz = 0` and Python raises `ZeroDivisionError`, modelled as
`none`. -/
def find_base_candles (data : List Candle) (nocffz : ℕ) : Option (List BCandle) :=
  if nocffz = 0 ∧ 0 < data.length then none
  else some ((List.range data.length).map (fun index =>
    let c := data.getD index default
    { candle := c
      momentum := c.momentum
      candle_type :=
        if nocffz ≤ index ∧ index + nocffz < data.length ∧
            neighborSum data nocffz index / ((2 * nocffz : ℕ) : ℚ) > 6 * c.momentum
        then CandleType.base else CandleType.momentum }))

/-! ## Detector (`find_zones`, zones.py lines 193-225) -/

/-- The touch test of `find_zones` (zones.py lines 214-215): the scanned
candle's high or low lies strictly inside the open band
`(base_candle.low, base_candle.high)`. -/
def touch (base_candle candle : Candle) : Prop :=
  (candle.high > base_candle.low ∧ candle.high < base_candle.high) ∨
    (candle.low > base_candle.low ∧ candle.low < base_candle.high)

instance (b c : Candle) : Decidable (touch b c) :=
  inferInstanceAs (Decidable (_ ∨ _))

/-- The inner scan of `find_zones` (zones.py lines 211-218): walk the
remaining candles accumulating `number_of_touches`, and `break` as soon as the
running count exceeds `max_num_touches`. -/
def touch_scan (base_candle : Candle) (max_num_touches : ℕ) :
    List BCandle → ℕ → ℕ
  | [], number_of_touches => number_of_touches
  | candle :: rest, number_of_touches =>
    if touch base_candle candle.candle then
      if number_of_touches + 1 > max_num_touches then number_of_touches + 1
      else touch_scan base_candle max_num_touches rest (number_of_touches + 1)
    else touch_scan base_candle max_num_touches rest number_of_touches

/-- Sort key of `sort_values(by="low", ascending=True)` on zones. -/
def lowLe (x y : Zone) : Prop := x.low ≤ y.low

instance : DecidableRel lowLe := fun x y => inferInstanceAs (Decidable (x.low ≤ y.low))

instance : IsTotal Zone lowLe := ⟨fun x y => le_total x.low y.low⟩

instance : IsTrans Zone lowLe := ⟨fun _ _ _ h h' => le_trans h h'⟩

/-- Embedding of `find_zones` (zones.py lines 193-225): for every row with
`candle_type == "base"`, in frame order, scan the rows with
`open_timestamp > base_candle["close_timestamp"]` counting touches with early
exit, keep the zone when the count stays `<= max_num_touches`, and finally
sort the zones by `low`. -/
def find_zones (data : List BCandle) (max_num_touches : ℕ) : List Zone :=
  List.insertionSort lowLe (data.filterMap (fun base_candle =>
    if base_candle.candle_type = CandleType.base then
      if touch_scan base_candle.candle max_num_touches
          (data.filter (fun candle =>
            decide (candle.candle.open_timestamp > base_candle.candle.close_timestamp))) 0
          ≤ max_num_touches then
        some { close_timestamp := base_candle.candle.close_timestamp
               high := base_candle.candle.high
               low := base_candle.candle.low }
      else none
    else none))

/-- The touch count as the specification states it, with no early exit: the
number of candles `c` with `c.open_timestamp > b.close_timestamp` whose high
or low falls strictly inside the open band `(b.low, b.high)`. -/
def touch_count_spec (data : List BCandle) (b : Candle) : ℕ :=
  ((data.filter (fun candle =>
      decide (candle.candle.open_timestamp > b.close_timestamp))).filter
    (fun candle => decide (touch b candle.candle))).length

/-! ## Merger (`append_zones`, zones.py lines 228-258) -/

/-- The zones emitted by the `for` loop of `append_zones` (zones.py lines
241-253).  A merge of the pair `(zones[index-1], zones[index])` emits
`{close_timestamp[index-1], high[index], low[index-1]}` and sets `flag`, which
makes the next iteration `continue` (so the following pair is skipped); a
non-merging iteration emits `zones[index-1]` unchanged. -/
def append_zones_loop : List Zone → List Zone
  | [] => []
  | [_] => []
  | z0 :: z1 :: rest =>
    if z0.high ≥ z1.low then
      { close_timestamp := z0.close_timestamp, high := z1.high, low := z0.low }
        :: append_zones_loop rest
    else
      { close_timestamp := z0.close_timestamp, high := z0.high, low := z0.low }
        :: append_zones_loop (z1 :: rest)

/-- Embedding of `append_zones` (zones.py lines 228-258).  After the loop the
code appends `last_zone`, built from `zones["close_timestamp"][index - 1]`
with `index` left over from the loop (so `close_timestamp` of row
`len(zones) - 2`) and the `high`/`low` of row `len(zones) - 1`.  When
`len(zones) < 2` the loop body never runs, `index` is an unassigned local,
and Python raises `UnboundLocalError`; this is modelled as `none`. -/
def append_zones (zones : List Zone) : Option (List Zone) :=
  match zones with
  | [] => none
  | [_] => none
  | z0 :: z1 :: rest =>
    let zs := z0 :: z1 :: rest
    some (append_zones_loop zs ++
      [{ close_timestamp := (zs.getD (zs.length - 2) default).close_timestamp
         high := (zs.getD (zs.length - 1) default).high
         low := (zs.getD (zs.length - 1) default).low }])

/-- One fuel-indexed unfolding of the merge-to-fixed-point loop of
`generate_chart` (zones.py lines 273-274):
`while len(zones) > len(append_zones(zones)): zones = append_zones(zones)`.
Each iteration strictly decreases the zone count, so fuel
`initial length + 1` (as supplied by `generate_chart_zones`) is never
exhausted; `merge_fix_isSome` below proves the fuel is sufficient. -/
def merge_fix : ℕ → List Zone → Option (List Zone)
  | 0, _ => none
  | fuel + 1, zones =>
    match append_zones zones with
    | none => none
    | some out => if out.length < zones.length then merge_fix fuel out else some zones

/-- The zone post-processing performed by `generate_chart` before drawing
(zones.py lines 273-274): iterate `append_zones` while a pass reduces the
count. -/
def generate_chart_zones (zones : List Zone) : Option (List Zone) :=
  merge_fix (zones.length + 1) zones

/-! ## Helper lemmas about the detector -/

/-- The early-exit scan accepts (stays within the budget) exactly when the
full touch count fits in the budget: the `break` fires only after the running
count has already exceeded `max_num_touches`, so it never changes the
accept/reject decision. -/
lemma touch_scan_le_iff (b : Candle) (m : ℕ) :
    ∀ (l : List BCandle) (n : ℕ),
      touch_scan b m l n ≤ m ↔
        n + (l.filter (fun c => decide (touch b c.candle))).length ≤ m := by
  intro l
  induction l with
  | nil => intro n; simp [touch_scan]
  | cons c rest ih =>
    intro n
    by_cases h : touch b c.candle
    · have hfil : List.filter (fun x => decide (touch b x.candle)) (c :: rest) =
          c :: List.filter (fun x => decide (touch b x.candle)) rest := by
        simp [List.filter_cons, h]
      by_cases hm : n + 1 > m
      · simp only [touch_scan, if_pos h, if_pos hm, hfil, List.length_cons]
        omega
      · simp only [touch_scan, if_pos h, if_neg hm, ih (n + 1), hfil,
          List.length_cons]
        omega
    · have hfil : List.filter (fun x => decide (touch b x.candle)) (c :: rest) =
          List.filter (fun x => decide (touch b x.candle)) rest := by
        simp [List.filter_cons, h]
      simp only [touch_scan, if_neg h, ih n, hfil]

/-- The zone list built by `find_zones` is a permutation of the list that
keeps, per base candle in frame order, the zone whose full (non-early-exit)
touch count is within the budget. -/
lemma find_zones_perm (data : List BCandle) (m : ℕ) :
    (find_zones data m).Perm (data.filterMap (fun b =>
      if b.candle_type = CandleType.base ∧ touch_count_spec data b.candle ≤ m
      then some { close_timestamp := b.candle.close_timestamp,
                  high := b.candle.high, low := b.candle.low }
      else none)) := by
  unfold find_zones
  refine (List.perm_insertionSort lowLe _).trans ?_
  rw [List.filterMap_congr]
  intro b _
  by_cases hb : b.candle_type = CandleType.base
  · simp only [if_pos hb]
    have hiff : touch_scan b.candle m
        (data.filter (fun candle =>
          decide (candle.candle.open_timestamp > b.candle.close_timestamp))) 0 ≤ m ↔
        touch_count_spec data b.candle ≤ m := by
      rw [touch_scan_le_iff]
      simp [touch_count_spec]
    by_cases hc : touch_count_spec data b.candle ≤ m
    · rw [if_pos (hiff.mpr hc), if_pos ⟨hb, hc⟩]
    · rw [if_neg (fun hs => hc (hiff.mp hs)),
        if_neg (fun hand => hc hand.right)]
  · simp [hb]

/-! ## Claim C3: detector touch counting, keep condition and ordering -/

/-- Claim C3: for every base candle `b` of the classified input, `find_zones`
counts one touch for each candle `c` with
`c.open_timestamp > b.close_timestamp` whose high or low lies strictly inside
the open band `(b.low, b.high)`, and emits the zone
`{close_timestamp := b.close_timestamp, high := b.high, low := b.low}` if and
only if that touch count is at most `max_num_touches`; the resulting zone
list is sorted ascending by `low`. -/
theorem find_zones_characterization (data : List BCandle) (max_num_touches : ℕ) :
    List.Sorted lowLe (find_zones data max_num_touches) ∧
    (find_zones data max_num_touches).Perm (data.filterMap (fun b =>
      if b.candle_type = CandleType.base ∧
          touch_count_spec data b.candle ≤ max_num_touches
      then some { close_timestamp := b.candle.close_timestamp,
                  high := b.candle.high, low := b.candle.low }
      else none)) :=
  ⟨List.sorted_insertionSort lowLe _, find_zones_perm data max_num_touches⟩

/-! ## Claim C5: monotonicity of the kept-zone set in `max_touches` -/

/-- Claim C5: for a fixed classified input, the zone set of `find_zones` is
monotonically non-shrinking in the touch budget: every zone kept with
threshold `t` is also kept with any threshold `t2 ≥ t`, despite the scan's
early exit. -/
theorem find_zones_monotone (data : List BCandle) (t t2 : ℕ) (ht : t ≤ t2)
    (z : Zone) (hz : z ∈ find_zones data t) : z ∈ find_zones data t2 := by
  have h1 := (find_zones_perm data t).mem_iff.mp hz
  rw [List.mem_filterMap] at h1
  obtain ⟨b, hbmem, hsome⟩ := h1
  by_cases hc : b.candle_type = CandleType.base ∧ touch_count_spec data b.candle ≤ t
  · rw [if_pos hc] at hsome
    refine (find_zones_perm data t2).mem_iff.mpr ?_
    rw [List.mem_filterMap]
    exact ⟨b, hbmem, by rw [if_pos ⟨hc.left, hc.right.trans ht⟩]; exact hsome⟩
  · rw [if_neg hc] at hsome
    exact absurd hsome (by simp)

/-- Concrete input for the monotonicity witness: a single base candle with no
later candles, kept with budget 0. -/
def c5_data : List BCandle :=
  [{ candle := { open_timestamp := 0, open_price := 12, high := 20, low := 10,
                 close_price := 12, volume := 1, close_timestamp := 99,
                 trades_number := 1 },
     momentum := 0, candle_type := CandleType.base }]

/-- Witness for C5: the zone kept at threshold 0 is still kept at
threshold 1. -/
theorem find_zones_monotone_witness :
    ({ close_timestamp := 99, high := 20, low := 10 } : Zone) ∈
      find_zones c5_data 1 :=
  find_zones_monotone c5_data 0 1 (by decide) _ (by with_unfolding_all decide)

/-! ## Claim C10: an engulfing candle contributes no touch -/

/-- Base candle for the engulfing example: band (10, 20), `candle_type`
`"base"`. -/
def c10_base : BCandle :=
  { candle := { open_timestamp := 0, open_price := 12, high := 20, low := 10,
                close_price := 12, volume := 1, close_timestamp := 99,
                trades_number := 1 },
    momentum := 0, candle_type := CandleType.momentum }

/-- Later candle for the engulfing example: range (5, 25) sweeps entirely
through the base band (10, 20). -/
def c10_engulf : BCandle :=
  { candle := { open_timestamp := 100, open_price := 5, high := 25, low := 5,
                close_price := 25, volume := 1, close_timestamp := 199,
                trades_number := 1 },
    momentum := 20, candle_type := CandleType.momentum }

/-- Classified input for the engulfing example: the base candle (marked
`"base"`) followed by the engulfing candle. -/
def c10_data : List BCandle :=
  [{ c10_base with candle_type := CandleType.base }, c10_engulf]

/-- Claim C10: a later candle that fully engulfs a base candle's band
(`c.low ≤ b.low` and `c.high ≥ b.high`) never satisfies the touch test of
`find_zones`, so a zone can be kept (here with `max_touches = 0`) even though
a later candle's range sweeps entirely through it. -/
theorem engulfing_candle_no_touch :
    (∀ b c : Candle, c.low ≤ b.low → b.high ≤ c.high → ¬ touch b c) ∧
    (c10_engulf.candle.low ≤ c10_base.candle.low ∧
      c10_base.candle.high ≤ c10_engulf.candle.high ∧
      c10_base.candle.close_timestamp < c10_engulf.candle.open_timestamp) ∧
    find_zones c10_data 0 = [{ close_timestamp := 99, high := 20, low := 10 }] := by
  refine ⟨?_, by refine ⟨by decide, by decide, by decide⟩, ?_⟩
  · rintro b c hlow hhigh (⟨-, h2⟩ | ⟨h3, -⟩)
    · exact absurd (lt_of_le_of_lt hhigh h2) (lt_irrefl _)
    · exact absurd (lt_of_le_of_lt hlow h3) (lt_irrefl _)
  · with_unfolding_all decide

/-- Witness for C10: the concrete engulfing candle of `c10_data` makes no
touch on the concrete base band. -/
theorem engulfing_candle_no_touch_witness :
    ¬ touch c10_base.candle c10_engulf.candle :=
  engulfing_candle_no_touch.left c10_base.candle c10_engulf.candle
    (by decide) (by decide)

/-! ## Claim C6 (code bug): `append_zones` on 0 or 1 zones -/

/-- Claim C6 fails on the code: `append_zones` reads `index` after its loop,
and for an input of fewer than 2 zones the loop body never runs, so Python
raises `UnboundLocalError` (modelled as `none`) instead of returning the
input unchanged. -/
theorem append_zones_degenerate_raises :
    append_zones [] = none ∧
    append_zones [{ close_timestamp := 0, high := 20, low := 10 }] = none :=
  ⟨rfl, rfl⟩

/-! ## Helper lemmas about the merger -/

/-- A merge pass emits strictly fewer loop zones than it consumes: each
iteration emits one zone and consumes one input zone (two when the pair
merges), and the loop stops one short of the end. -/
lemma append_zones_loop_length_lt :
    ∀ zs : List Zone, zs ≠ [] → (append_zones_loop zs).length < zs.length
  | [], h => absurd rfl h
  | [_], _ => by simp [append_zones_loop]
  | z0 :: z1 :: rest, _ => by
    rw [append_zones_loop]
    by_cases h : z0.high ≥ z1.low
    · rw [if_pos h]
      cases rest with
      | nil => simp [append_zones_loop]
      | cons z2 r2 =>
        have := append_zones_loop_length_lt (z2 :: r2) (by simp)
        simp only [List.length_cons] at this ⊢
        omega
    · rw [if_neg h]
      have := append_zones_loop_length_lt (z1 :: rest) (by simp)
      simp only [List.length_cons] at this ⊢
      omega

/-- A merge pass whose loop emits exactly `length - 1` zones performed no
merge at any pair except possibly the last one, so all adjacent pairs other
than the last are strictly separated. -/
lemma append_zones_loop_fixpoint :
    ∀ zs : List Zone, (append_zones_loop zs).length + 1 = zs.length →
      ∀ j : ℕ, j + 2 < zs.length →
        (zs.getD j default).high < (zs.getD (j + 1) default).low
  | [], hlen => by simp [append_zones_loop] at hlen
  | [_], _ => by intro j hj; exact absurd hj (by simp)
  | z0 :: z1 :: rest, hlen => by
    intro j hj
    rw [append_zones_loop] at hlen
    by_cases h : z0.high ≥ z1.low
    · rw [if_pos h] at hlen
      simp only [List.length_cons] at hlen
      cases hr : rest with
      | nil =>
        subst hr
        simp only [List.length_cons, List.length_nil] at hj
        omega
      | cons z2 r2 =>
        exfalso
        have hlt := append_zones_loop_length_lt rest (by rw [hr]; simp)
        rw [hr] at hlen hlt
        omega
    · rw [if_neg h] at hlen
      simp only [List.length_cons] at hlen hj
      match j with
      | 0 =>
        simp only [List.getD_cons_zero, List.getD_cons_succ]
        exact lt_of_not_ge h
      | k + 1 =>
        simp only [List.getD_cons_succ]
        exact append_zones_loop_fixpoint (z1 :: rest)
          (by simp only [List.length_cons]; omega) k
          (by simp only [List.length_cons]; omega)

/-- Shape of a successful merge pass: the input had at least two zones and
the output is the loop output plus the trailing `last_zone` row. -/
lemma append_zones_eq :
    ∀ zs out : List Zone, append_zones zs = some out →
      2 ≤ zs.length ∧ out.length = (append_zones_loop zs).length + 1
  | [], _, h => by simp [append_zones] at h
  | [_], _, h => by simp [append_zones] at h
  | z0 :: z1 :: rest, out, h => by
    simp only [append_zones, Option.some.injEq] at h
    subst h
    simp

/-- A result of the fixed-point loop is a list whose own merge pass does not
reduce the count. -/
lemma merge_fix_some :
    ∀ (fuel : ℕ) (zs out : List Zone), merge_fix fuel zs = some out →
      ∃ nxt, append_zones out = some nxt ∧ ¬ nxt.length < out.length := by
  intro fuel
  induction fuel with
  | zero => intro zs out h; simp [merge_fix] at h
  | succ f ih =>
    intro zs out h
    rw [merge_fix] at h
    cases hzs : append_zones zs with
    | none => rw [hzs] at h; exact absurd h (by simp)
    | some nxt =>
      rw [hzs] at h
      dsimp only at h
      by_cases hlt : nxt.length < zs.length
      · rw [if_pos hlt] at h
        exact ih nxt out h
      · rw [if_neg hlt] at h
        obtain rfl : zs = out := by simpa using h
        exact ⟨nxt, hzs, hlt⟩

/-! ## Claim C2 (corrected): the fixed point and non-overlap -/

/-- Counterexample to claim C2 as stated: two overlapping zones, sorted by
low.  A merge at the last (and only) pair emits the merged zone plus the
trailing `last_zone` row, so the pass does not reduce the count, the
fixed-point loop of `generate_chart` exits immediately, and the final output
is the original pair, whose adjacent zones violate
`zone[i].high < zone[i+1].low`. -/
theorem merge_fixpoint_overlap_counterexample :
    generate_chart_zones
        [{ close_timestamp := 0, high := 20, low := 10 },
         { close_timestamp := 1, high := 25, low := 15 }] =
      some [{ close_timestamp := 0, high := 20, low := 10 },
            { close_timestamp := 1, high := 25, low := 15 }] ∧
    ¬ (([({ close_timestamp := 0, high := 20, low := 10 } : Zone),
         { close_timestamp := 1, high := 25, low := 15 }].getD 0 default).high <
        ([({ close_timestamp := 0, high := 20, low := 10 } : Zone),
          { close_timestamp := 1, high := 25, low := 15 }].getD 1 default).low) := by
  constructor
  · with_unfolding_all decide
  · decide

/-- Claim C2, amended: after the merger has been iterated to its fixed point,
every adjacent pair of the final output except possibly the last satisfies
`zone[j].high < zone[j+1].low`.  The last adjacent pair can remain
overlapping, because a merge at the last position emits both the merged zone
and the trailing `last_zone` row and therefore does not reduce the count. -/
theorem merge_fixpoint_separated_except_last (zs out : List Zone)
    (h : generate_chart_zones zs = some out) (j : ℕ)
    (hj : j + 2 < out.length) :
    (out.getD j default).high < (out.getD (j + 1) default).low := by
  obtain ⟨nxt, hnxt, hge⟩ := merge_fix_some _ _ _ h
  obtain ⟨h2, hlen⟩ := append_zones_eq _ _ hnxt
  have hlt := append_zones_loop_length_lt out
    (by intro he; rw [he] at h2; simp at h2)
  exact append_zones_loop_fixpoint out (by omega) j hj

/-- Witness for the amended C2: three pairwise separated zones are a fixed
point of the merger, and their first adjacent pair is strictly separated. -/
theorem merge_fixpoint_separated_witness :
    (([({ close_timestamp := 0, high := 20, low := 10 } : Zone),
       { close_timestamp := 1, high := 40, low := 30 },
       { close_timestamp := 2, high := 60, low := 50 }].getD 0 default).high <
      ([({ close_timestamp := 0, high := 20, low := 10 } : Zone),
        { close_timestamp := 1, high := 40, low := 30 },
        { close_timestamp := 2, high := 60, low := 50 }].getD 1 default).low) :=
  merge_fixpoint_separated_except_last
    [{ close_timestamp := 0, high := 20, low := 10 },
     { close_timestamp := 1, high := 40, low := 30 },
     { close_timestamp := 2, high := 60, low := 50 }]
    [{ close_timestamp := 0, high := 20, low := 10 },
     { close_timestamp := 1, high := 40, low := 30 },
     { close_timestamp := 2, high := 60, low := 50 }]
    (by with_unfolding_all decide) 0 (by decide)

/-! ## Helper lemmas about the normalizer -/

/-- Strict order of the `open_timestamp` sort key. -/
def strictOpen (x y : Candle) : Prop := x.open_timestamp < y.open_timestamp

instance : IsTrans Candle strictOpen := ⟨fun _ _ _ h h' => lt_trans h h'⟩

instance : IsAntisymm Candle strictOpen :=
  ⟨fun _ _ h h' => absurd (lt_trans h h') (lt_irrefl _)⟩

/-- Proof device for the normalizer: the input candles interleaved in place
with their gap fillers.  `generate_missing_candles` produces exactly this
list whenever the input is well formed, because sorting then merely restores
the interleaved order. -/
def normChain : List Candle → List Candle
  | [] => []
  | [a] => [a]
  | a :: b :: rest =>
      a :: ((if a.close_timestamp + 1 = b.open_timestamp then [] else [mkFiller a b])
        ++ normChain (b :: rest))

lemma normChain_cons (b : Candle) (rest : List Candle) :
    ∃ t, normChain (b :: rest) = b :: t := by
  cases rest with
  | nil => exact ⟨[], rfl⟩
  | cons c r => exact ⟨_, rfl⟩

/-- The interleaved list is a permutation of the input followed by its
fillers, which is what the normalizer sorts. -/
lemma normChain_perm : ∀ l : List Candle, (normChain l).Perm (l ++ fillers l)
  | [] => by simp [normChain, fillers]
  | [a] => by simp [normChain, fillers]
  | a :: b :: rest => by
    rw [normChain, fillers]
    simp only [List.cons_append]
    refine List.Perm.cons a ?_
    have h1 := List.Perm.append_left
      (if a.close_timestamp + 1 = b.open_timestamp then [] else [mkFiller a b])
      (normChain_perm (b :: rest))
    refine h1.trans ?_
    rw [← List.append_assoc, ← List.append_assoc]
    exact List.Perm.append_right _ List.perm_append_comm

/-- The interleaved list is contiguous: each filler starts right after the
candle before it and ends right before the candle after it, and adjacent
input candles without a filler between them satisfy the gap test's negation.
This needs no hypothesis on the input at all. -/
lemma normChain_contiguous :
    ∀ l : List Candle,
      (normChain l).Chain' (fun x y => x.close_timestamp + 1 = y.open_timestamp)
  | [] => by simp [normChain]
  | [a] => by simp [normChain]
  | a :: b :: rest => by
    obtain ⟨t, ht⟩ := normChain_cons b rest
    have ih := normChain_contiguous (b :: rest)
    rw [ht] at ih
    rw [normChain]
    by_cases hg : a.close_timestamp + 1 = b.open_timestamp
    · rw [if_pos hg]
      simp only [List.nil_append, ht]
      exact List.chain'_cons.mpr ⟨hg, ih⟩
    · rw [if_neg hg]
      simp only [List.cons_append, List.nil_append, ht]
      refine List.chain'_cons.mpr ⟨rfl, List.chain'_cons.mpr ⟨?_, ih⟩⟩
      show (b.open_timestamp - 1) + 1 = b.open_timestamp
      omega

/-- On a well-formed, time-ordered input the interleaved list is strictly
sorted by `open_timestamp`. -/
lemma normChain_sorted :
    ∀ l : List Candle,
      (∀ c ∈ l, c.open_timestamp ≤ c.close_timestamp) →
      l.Chain' (fun x y => x.close_timestamp < y.open_timestamp) →
      (normChain l).Chain' strictOpen
  | [], _, _ => by simp [normChain]
  | [a], _, _ => by simp [normChain]
  | a :: b :: rest, hwf, hord => by
    obtain ⟨hab, hrest⟩ := List.chain'_cons.mp hord
    have ha : a.open_timestamp ≤ a.close_timestamp := hwf a (by simp)
    have ih := normChain_sorted (b :: rest)
      (fun c hc => hwf c (List.mem_cons_of_mem a hc)) hrest
    obtain ⟨t, ht⟩ := normChain_cons b rest
    rw [ht] at ih
    rw [normChain]
    by_cases hg : a.close_timestamp + 1 = b.open_timestamp
    · rw [if_pos hg]
      simp only [List.nil_append, ht]
      exact List.chain'_cons.mpr ⟨lt_of_le_of_lt ha hab, ih⟩
    · rw [if_neg hg]
      simp only [List.cons_append, List.nil_append, ht]
      refine List.chain'_cons.mpr ⟨?_, List.chain'_cons.mpr ⟨?_, ih⟩⟩
      · show a.open_timestamp < a.close_timestamp + 1
        omega
      · show a.close_timestamp + 1 < b.open_timestamp
        omega

/-- On a well-formed, time-ordered input the normalizer's sort reproduces the
interleaved list exactly: the interleaved list is a strictly sorted
permutation of what is sorted, and a strictly sorted permutation is unique. -/
lemma generate_missing_candles_eq_normChain (data : List Candle)
    (hwf : ∀ c ∈ data, c.open_timestamp ≤ c.close_timestamp)
    (hord : data.Chain' (fun x y => x.close_timestamp < y.open_timestamp)) :
    generate_missing_candles data = normChain data := by
  have hperm : (generate_missing_candles data).Perm (normChain data) :=
    (List.perm_insertionSort byOpen _).trans (normChain_perm data).symm
  have hpw : (normChain data).Pairwise strictOpen :=
    List.chain'_iff_pairwise.mp (normChain_sorted data hwf hord)
  have hne : (normChain data).Pairwise
      (fun x y => x.open_timestamp ≠ y.open_timestamp) :=
    hpw.imp (fun h => ne_of_lt h)
  have hne2 : (generate_missing_candles data).Pairwise
      (fun x y => x.open_timestamp ≠ y.open_timestamp) :=
    (hperm.pairwise_iff (fun h => Ne.symm h)).mpr hne
  have hle : (generate_missing_candles data).Pairwise byOpen :=
    List.sorted_insertionSort byOpen _
  have hlt : (generate_missing_candles data).Pairwise strictOpen :=
    (hle.and hne2).imp (fun h => lt_of_le_of_ne h.left h.right)
  exact List.eq_of_perm_of_sorted hperm hlt hpw

/-! ## Claim C1: gap-fill contiguity -/

/-- Claim C1: on any time-ordered input (candles span a nonempty timestamp
interval and each candle closes before the next one opens), every
consecutive pair of the normalizer's output is contiguous:
`candle[i].close_timestamp + 1 = candle[i+1].open_timestamp`. -/
theorem normalizer_contiguous (data : List Candle)
    (hwf : ∀ c ∈ data, c.open_timestamp ≤ c.close_timestamp)
    (hord : data.Chain' (fun x y => x.close_timestamp < y.open_timestamp)) :
    (generate_missing_candles data).Chain'
      (fun x y => x.close_timestamp + 1 = y.open_timestamp) := by
  rw [generate_missing_candles_eq_normChain data hwf hord]
  exact normChain_contiguous data

/-- Concrete two-candle input with a gap (close 99, next open 200). -/
def c1_data : List Candle :=
  [{ open_timestamp := 0, open_price := 1, high := 1, low := 1,
     close_price := 1, volume := 1, close_timestamp := 99, trades_number := 1 },
   { open_timestamp := 200, open_price := 2, high := 2, low := 2,
     close_price := 2, volume := 2, close_timestamp := 299, trades_number := 2 }]

/-- Witness for C1: the gapped two-candle input normalizes to a contiguous
series. -/
theorem normalizer_contiguous_witness :
    (generate_missing_candles c1_data).Chain'
      (fun x y => x.close_timestamp + 1 = y.open_timestamp) :=
  normalizer_contiguous c1_data (by decide)
    (List.chain'_cons.mpr ⟨by decide, List.chain'_singleton _⟩)

/-! ## Claim C7: fields of a synthesized filler candle -/

/-- Each gapped adjacent input pair contributes its filler to the appended
filler list. -/
lemma mem_fillers :
    ∀ (l : List Candle) (i : ℕ), i + 1 < l.length →
      (l.getD i default).close_timestamp + 1 ≠
        (l.getD (i + 1) default).open_timestamp →
      mkFiller (l.getD i default) (l.getD (i + 1) default) ∈ fillers l
  | [], i, h, _ => by simp at h
  | [_], i, h, _ => by simp at h
  | a :: b :: rest, 0, _, hgap => by
    simp only [List.getD_cons_zero, List.getD_cons_succ] at hgap ⊢
    rw [fillers, if_neg hgap]
    exact List.mem_append_left _ (by simp)
  | a :: b :: rest, i + 1, h, hgap => by
    simp only [List.getD_cons_succ] at hgap ⊢
    rw [fillers]
    refine List.mem_append_right _ ?_
    exact mem_fillers (b :: rest) i
      (by simp only [List.length_cons] at h ⊢; omega) hgap

/-- Claim C7: for every gapped adjacent input pair, the normalizer's output
contains a filler candle with `open_timestamp` one past the earlier candle's
close, `close_timestamp` one before the later candle's open, `open` the
earlier close price, `close` the later open price, `high`/`low` the
max/min of its own open and close, and `volume`/`trades_number` the
arithmetic means of the neighbors' values. -/
theorem filler_fields (data : List Candle) (i : ℕ) (h : i + 1 < data.length)
    (hgap : (data.getD i default).close_timestamp + 1 ≠
      (data.getD (i + 1) default).open_timestamp) :
    ∃ f ∈ generate_missing_candles data,
      f.open_timestamp = (data.getD i default).close_timestamp + 1 ∧
      f.close_timestamp = (data.getD (i + 1) default).open_timestamp - 1 ∧
      f.open_price = (data.getD i default).close_price ∧
      f.close_price = (data.getD (i + 1) default).open_price ∧
      f.high = max f.open_price f.close_price ∧
      f.low = min f.open_price f.close_price ∧
      f.volume = ((data.getD i default).volume +
        (data.getD (i + 1) default).volume) / 2 ∧
      f.trades_number = ((data.getD i default).trades_number +
        (data.getD (i + 1) default).trades_number) / 2 := by
  refine ⟨mkFiller (data.getD i default) (data.getD (i + 1) default), ?_,
    rfl, rfl, rfl, rfl, rfl, rfl, rfl, rfl⟩
  unfold generate_missing_candles
  rw [List.mem_insertionSort]
  exact List.mem_append_right _ (mem_fillers data i h hgap)

/-- Concrete gapped input for the filler witness. -/
def c7_data : List Candle :=
  [{ open_timestamp := 0, open_price := 1, high := 4, low := 1,
     close_price := 3, volume := 10, close_timestamp := 99, trades_number := 2 },
   { open_timestamp := 200, open_price := 7, high := 8, low := 6,
     close_price := 8, volume := 30, close_timestamp := 299, trades_number := 4 }]

/-- Witness for C7 at the gapped pair of `c7_data`. -/
theorem filler_fields_witness :
    ∃ f ∈ generate_missing_candles c7_data,
      f.open_timestamp = (c7_data.getD 0 default).close_timestamp + 1 ∧
      f.close_timestamp = (c7_data.getD 1 default).open_timestamp - 1 ∧
      f.open_price = (c7_data.getD 0 default).close_price ∧
      f.close_price = (c7_data.getD 1 default).open_price ∧
      f.high = max f.open_price f.close_price ∧
      f.low = min f.open_price f.close_price ∧
      f.volume = ((c7_data.getD 0 default).volume +
        (c7_data.getD 1 default).volume) / 2 ∧
      f.trades_number = ((c7_data.getD 0 default).trades_number +
        (c7_data.getD 1 default).trades_number) / 2 :=
  filler_fields c7_data 0 (by decide) (by decide)

/-! ## Claim C8 (corrected): the normalizer never raises -/

/-- Later candle listed first, for the unsorted-input counterexample. -/
def c8_first : Candle :=
  { open_timestamp := 100, open_price := 1, high := 1, low := 1,
    close_price := 1, volume := 1, close_timestamp := 199, trades_number := 1 }

/-- Earlier candle listed second, for the unsorted-input counterexample. -/
def c8_second : Candle :=
  { open_timestamp := 0, open_price := 2, high := 2, low := 2,
    close_price := 2, volume := 3, close_timestamp := 99, trades_number := 5 }

/-- Counterexample to claim C8 as stated: `generate_missing_candles` contains
no validation and no exception path at all, so on the empty input it returns
the empty output, and on an input that is not time-ordered it still returns
an ordinary (here even non-contiguous) output, instead of failing with an
`InputError`. -/
theorem normalizer_no_input_error :
    generate_missing_candles [] = [] ∧
    generate_missing_candles [c8_first, c8_second] =
      [c8_second, c8_first,
       { open_timestamp := 200, open_price := 1, high := 2, low := 1,
         close_price := 2, volume := 2, close_timestamp := -1,
         trades_number := 3 }] := by
  exact ⟨rfl, by with_unfolding_all decide⟩

/-- Claim C8, amended: the normalizer never fails and never drops input: for
every input (empty, unsorted or otherwise) it returns an output containing
every input candle. -/
theorem normalizer_never_fails (data : List Candle) (c : Candle)
    (hc : c ∈ data) : c ∈ generate_missing_candles data := by
  unfold generate_missing_candles
  rw [List.mem_insertionSort]
  exact List.mem_append_left _ hc

/-- Witness for the amended C8 on the unsorted two-candle input. -/
theorem normalizer_never_fails_witness :
    c8_first ∈ generate_missing_candles [c8_first, c8_second] :=
  normalizer_never_fails [c8_first, c8_second] c8_first (by decide)

/-! ## Claim C4: classifier characterization -/

lemma getD_map_range {β : Type} [Inhabited β] (f : ℕ → β) (n i : ℕ)
    (h : i < n) : ((List.range n).map f).getD i default = f i := by
  rw [List.getD_eq_getElem?_getD, List.getElem?_map, List.getElem?_range h]
  rfl

/-- Claim C4: with `window = nocffz ≥ 1`, the classifier sets
`momentum[i] = |close[i] - open[i]|` for every candle, leaves the first and
last `nocffz` candles typed `"momentum"`, and types any other candle
`"base"` exactly when the mean momentum of its `2 * nocffz` neighbors
(indices `i - nocffz .. i + nocffz` excluding `i`) exceeds `6` times its own
momentum. -/
theorem classifier_characterization (data : List Candle) (nocffz : ℕ)
    (out : List BCandle) (hw : 0 < nocffz)
    (hout : find_base_candles data nocffz = some out) :
    out.length = data.length ∧
    ∀ i, i < data.length →
      (out.getD i default).candle = data.getD i default ∧
      (out.getD i default).momentum =
        |(data.getD i default).close_price - (data.getD i default).open_price| ∧
      ((i < nocffz ∨ data.length ≤ i + nocffz) →
        (out.getD i default).candle_type = CandleType.momentum) ∧
      (nocffz ≤ i → i + nocffz < data.length →
        ((out.getD i default).candle_type = CandleType.base ↔
          neighborSum data nocffz i / ((2 * nocffz : ℕ) : ℚ) >
            6 * (data.getD i default).momentum)) := by
  have hcond : ¬ (nocffz = 0 ∧ 0 < data.length) := fun hand => by omega
  unfold find_base_candles at hout
  rw [if_neg hcond] at hout
  have hout2 := (Option.some.inj hout).symm
  constructor
  · rw [hout2]; simp
  · intro i hi
    rw [hout2, getD_map_range _ _ i hi]
    dsimp only
    refine ⟨rfl, rfl, ?_, ?_⟩
    · intro hedge
      rw [if_neg]
      rintro ⟨h1, h2, -⟩
      omega
    · intro h1 h2
      by_cases hC : neighborSum data nocffz i / ((2 * nocffz : ℕ) : ℚ) >
          6 * (data.getD i default).momentum
      · rw [if_pos ⟨h1, h2, hC⟩]
        exact iff_of_true rfl hC
      · rw [if_neg (fun hand => hC hand.right.right)]
        exact iff_of_false (fun h => CandleType.noConfusion h) hC

/-- Concrete three-candle input for the classifier witness: the middle candle
has momentum 1 against neighbor average 10. -/
def c4_data : List Candle :=
  [{ open_timestamp := 0, open_price := 0, high := 10, low := 0,
     close_price := 10, volume := 1, close_timestamp := 99, trades_number := 1 },
   { open_timestamp := 100, open_price := 0, high := 1, low := 0,
     close_price := 1, volume := 1, close_timestamp := 199, trades_number := 1 },
   { open_timestamp := 200, open_price := 0, high := 10, low := 0,
     close_price := 10, volume := 1, close_timestamp := 299, trades_number := 1 }]

/-- The classifier output on `c4_data` with `window = 1`. -/
def c4_out : List BCandle :=
  [{ candle := { open_timestamp := 0, open_price := 0, high := 10, low := 0,
                 close_price := 10, volume := 1, close_timestamp := 99,
                 trades_number := 1 },
     momentum := 10, candle_type := CandleType.momentum },
   { candle := { open_timestamp := 100, open_price := 0, high := 1, low := 0,
                 close_price := 1, volume := 1, close_timestamp := 199,
                 trades_number := 1 },
     momentum := 1, candle_type := CandleType.base },
   { candle := { open_timestamp := 200, open_price := 0, high := 10, low := 0,
                 close_price := 10, volume := 1, close_timestamp := 299,
                 trades_number := 1 },
     momentum := 10, candle_type := CandleType.momentum }]

/-- Witness for C4 on `c4_data` with `window = 1`. -/
theorem classifier_characterization_witness :
    c4_out.length = c4_data.length ∧
    ∀ i, i < c4_data.length →
      (c4_out.getD i default).candle = c4_data.getD i default ∧
      (c4_out.getD i default).momentum =
        |(c4_data.getD i default).close_price -
          (c4_data.getD i default).open_price| ∧
      ((i < 1 ∨ c4_data.length ≤ i + 1) →
        (c4_out.getD i default).candle_type = CandleType.momentum) ∧
      (1 ≤ i → i + 1 < c4_data.length →
        ((c4_out.getD i default).candle_type = CandleType.base ↔
          neighborSum c4_data 1 i / ((2 * 1 : ℕ) : ℚ) >
            6 * (c4_data.getD i default).momentum)) :=
  classifier_characterization c4_data 1 c4_out (by decide)
    (by with_unfolding_all decide)

/-! ## Claim C9: timeframe token conversion -/

/-- A nonempty all-digit string parses under `pyInt?` to its digit value,
as Python's `int` does. -/
lemma pyInt?_digits (cs : List Char) (hne : cs ≠ [])
    (hdig : cs.all Char.isDigit) : pyInt? cs = some (digitsVal cs) := by
  match cs, hne with
  | c :: rest, _ =>
    have hc : c.isDigit := by
      simp only [List.all_cons, Bool.and_eq_true] at hdig
      exact hdig.left
    unfold pyInt?
    split
    · rename_i heq
      exfalso
      have : c = '+' := (List.cons.injEq _ _ _ _ ▸ heq).left
      rw [this] at hc
      exact absurd hc (by decide)
    · rename_i heq
      exfalso
      have : c = '-' := (List.cons.injEq _ _ _ _ ▸ heq).left
      rw [this] at hc
      exact absurd hc (by decide)
    · rw [if_pos ⟨by simp, hdig⟩]

/-- Claim C9: a token of one or more digits followed by `m`, `h`, `d` or `w`
converts to its digit value times 60000, 3600000, 86400000 or 604800000
milliseconds respectively; a token with an unknown unit character or with a
prefix that `int` rejects converts to duration 0; and the caller's timestamp
alignment (`get_candles`) raises (`ZeroDivisionError`, modelled as `none`)
on duration 0 rather than treating it as a valid duration. -/
theorem convert_timeframe_spec :
    (∀ cs : List Char, cs ≠ [] → cs.all Char.isDigit →
      convert_timeframe (String.mk (cs ++ ['m'])) = some (digitsVal cs * 60000) ∧
      convert_timeframe (String.mk (cs ++ ['h'])) =
        some (digitsVal cs * 60000 * 60) ∧
      convert_timeframe (String.mk (cs ++ ['d'])) =
        some (digitsVal cs * 60000 * 60 * 24) ∧
      convert_timeframe (String.mk (cs ++ ['w'])) =
        some (digitsVal cs * 60000 * 60 * 24 * 7)) ∧
    (∀ (cs : List Char) (u : Char), u ≠ 'm' → u ≠ 'h' → u ≠ 'd' → u ≠ 'w' →
      convert_timeframe (String.mk (cs ++ [u])) = some 0) ∧
    (∀ (cs : List Char) (u : Char), pyInt? cs = none →
      convert_timeframe (String.mk (cs ++ [u])) = some 0) ∧
    (∀ now : ℤ, last_timestamp_in_timeframe now 0 = none) := by
  have hcore : ∀ (cs : List Char) (u : Char),
      convert_timeframe (String.mk (cs ++ [u])) =
        some (match pyInt? cs with
          | none => 0
          | some number =>
            if u = 'm' then number * 60000
            else if u = 'h' then number * 60000 * 60
            else if u = 'd' then number * 60000 * 60 * 24
            else if u = 'w' then number * 60000 * 60 * 24 * 7
            else 0) := by
    intro cs u
    show convert_timeframe_core (cs ++ [u]) = _
    unfold convert_timeframe_core
    rw [List.getLast?_concat, List.dropLast_concat]
  refine ⟨?_, ?_, ?_, ?_⟩
  · intro cs hne hdig
    refine ⟨?_, ?_, ?_, ?_⟩ <;>
      rw [hcore, pyInt?_digits cs hne hdig] <;> simp
  · intro cs u hm hh hd hw2
    rw [hcore]
    cases hpy : pyInt? cs
    · rfl
    · simp [hm, hh, hd, hw2]
  · intro cs u hpy
    rw [hcore, hpy]
  · intro now
    rfl

/-- Witness for C9: the token `42h` converts to 151200000 ms, the token `xm`
(non-numeric prefix) converts to 0, and alignment by a zero duration fails. -/
theorem convert_timeframe_spec_witness :
    convert_timeframe (String.mk (['4', '2'] ++ ['h'])) = some 151200000 ∧
    convert_timeframe (String.mk (['x'] ++ ['m'])) = some 0 ∧
    last_timestamp_in_timeframe 1700000000000 0 = none :=
  ⟨(convert_timeframe_spec.left ['4', '2'] (by decide) (by decide)).right.left,
   convert_timeframe_spec.right.right.left ['x'] 'm' (by decide),
   convert_timeframe_spec.right.right.right 1700000000000⟩

/-! ## Fuel adequacy for the fixed-point loop -/

/-- The merge-pass loop emits at least one zone when the input has at least
two. -/
lemma append_zones_loop_pos (z0 z1 : Zone) (rest : List Zone) :
    1 ≤ (append_zones_loop (z0 :: z1 :: rest)).length := by
  rw [append_zones_loop]
  by_cases h : z0.high ≥ z1.low
  · rw [if_pos h]; simp
  · rw [if_neg h]; simp

/-- With fuel exceeding the current zone count, the fixed-point loop always
returns a result on inputs of at least two zones: every pass keeps the count
at two or more, and a recursing pass strictly decreases it.  This shows the
fuel supplied by `generate_chart_zones` is never the reason for a `none`,
so the fuel-indexed model agrees with the unbounded Python `while` loop. -/
lemma merge_fix_isSome :
    ∀ (fuel : ℕ) (zs : List Zone), zs.length < fuel → 2 ≤ zs.length →
      (merge_fix fuel zs).isSome = true := by
  intro fuel
  induction fuel with
  | zero => intro zs h _; omega
  | succ f ih =>
    intro zs hfuel h2
    rcases zs with _ | ⟨z0, _ | ⟨z1, rest⟩⟩
    · simp at h2
    · simp at h2
    · rw [merge_fix]
      cases hzs : append_zones (z0 :: z1 :: rest) with
      | none => simp [append_zones] at hzs
      | some out =>
        dsimp only
        obtain ⟨-, hlen⟩ := append_zones_eq _ _ hzs
        by_cases hlt : out.length < (z0 :: z1 :: rest).length
        · rw [if_pos hlt]
          refine ih _ ?_ ?_
          · simp only [List.length_cons] at hfuel hlt
            omega
          · have := append_zones_loop_pos z0 z1 rest
            omega
        · rw [if_neg hlt]
          rfl

/-- Fuel adequacy at the entry point: `generate_chart` never stops because of
the model's fuel on a two-plus-zone input. -/
lemma generate_chart_zones_isSome (zs : List Zone) (h : 2 ≤ zs.length) :
    (generate_chart_zones zs).isSome = true :=
  merge_fix_isSome (zs.length + 1) zs (by omega) h
